import Mathlib

/-!
Verification development for the rapyd-ts-sdk repository.

The development shallowly embeds the credential-lifecycle manager
(`src/utils/hmac-key-manager.ts`) and the request-signing code
(`src/index.ts`, which contains two revisions of `RapydClient.signRequest`)
as executable Lean definitions, and proves the specified properties about
them.

Modelling conventions:
* `crypto.createHmac('sha256', key).update(data).digest()` is an opaque
  platform primitive; it is modelled as an abstract parameter
  `hmac : String → String → List Byte` returning the digest bytes, and
  `digest('hex')` is `hexEncode (hmac key data)`.
* `Buffer.from(s, 'hex')` is modelled by `bufFromHexL`, which decodes
  hex-digit pairs greedily and stops at the first character that is not a
  hex digit (Node's behaviour); it never throws.
* `crypto.timingSafeEqual` throws when the two buffers have different
  lengths; it is modelled as an `Except Unit Bool` value, and the `try`/
  `catch` blocks of the TypeScript source are modelled by matching on that
  value.
* `Date.now()` is modelled as one `now : Nat` observation (milliseconds)
  per public operation; `crypto.randomBytes` is modelled by an entropy
  stream `ent : Nat → List Byte` indexed by a counter threaded through the
  manager state.
* The optional `storageHandler` callback is user code that may throw; a
  call is modelled by `storageGet` / `storageSet`, which are `Except`
  valued and whose outcome is driven by a `StorageEnv` oracle.  Per the
  KeyStore contract, a successful `set` with a record stores it and a
  successful `set` without a record deletes it.
-/

namespace RapydSdk

/-- A byte, as produced by the crypto digests and by `Buffer.from(·,'hex')`. -/
abbrev Byte := Fin 256

/-- Lowercase hex digit for a nibble value (`0`–`9`, `a`–`f`), as produced by
Node's `digest('hex')` / `toString('hex')`. -/
def hexDigitChar (n : Nat) : Char :=
  if n < 10 then Char.ofNat (48 + n) else Char.ofNat (87 + n)

/-- The two hex characters of one byte. -/
def hexEncodeByte (b : Byte) : List Char :=
  [hexDigitChar (b.val / 16), hexDigitChar (b.val % 16)]

/-- Hex encoding of a byte list, as a character list. -/
def hexEncodeL : List Byte → List Char
  | [] => []
  | b :: bs => hexEncodeByte b ++ hexEncodeL bs

/-- Hex encoding of a byte list, as a string (Node `.toString('hex')` /
`.digest('hex')`). -/
def hexEncode (bs : List Byte) : String :=
  String.mk (hexEncodeL bs)

/-- Numeric value of a hex digit character (`0-9`, `a-f`, `A-F`), or `none`. -/
def hexDigitVal? (c : Char) : Option Nat :=
  if 48 ≤ c.toNat ∧ c.toNat ≤ 57 then some (c.toNat - 48)
  else if 97 ≤ c.toNat ∧ c.toNat ≤ 102 then some (c.toNat - 87)
  else if 65 ≤ c.toNat ∧ c.toNat ≤ 70 then some (c.toNat - 55)
  else none

/-- `Buffer.from(s, 'hex')`: decode hex-digit pairs greedily, stopping at the
first character that is not a hex digit (also at a lone trailing digit).
Never throws. -/
def bufFromHexL : List Char → List Byte
  | c1 :: c2 :: rest =>
    match hexDigitVal? c1, hexDigitVal? c2 with
    | some h, some l => ⟨(16 * h + l) % 256, Nat.mod_lt _ (by decide)⟩ :: bufFromHexL rest
    | _, _ => []
  | _ => []

/-- `crypto.timingSafeEqual(a, b)`: throws (modelled as `.error ()`) when the
buffers have different lengths, otherwise reports byte-for-byte equality. -/
def timingSafeEqual (a b : List Byte) : Except Unit Bool :=
  if a.length = b.length then .ok (decide (a = b)) else .error ()

/-- The per-tenant credential record (`interface KeyPair` in
`src/utils/hmac-key-manager.ts`). -/
structure KeyPair where
  active : String
  previous : List String
  timestamp : Nat
deriving DecidableEq

/-- The `for (const prevKey of keyPair.previous)` loop of
`HmacKeyManager.verifySignature`: recompute the digest under each retired key
and compare with `timingSafeEqual`, a thrown comparison error being caught and
treated as `continue`. -/
def tryPreviousKeys (hmac : String → String → List Byte) (data sig : String) :
    List String → Bool
  | [] => false
  | k :: ks =>
    match timingSafeEqual (bufFromHexL (hexEncode (hmac k data)).toList)
        (bufFromHexL sig.toList) with
    | .ok true => true
    | _ => tryPreviousKeys hmac data sig ks

/-- `HmacKeyManager.verifySignature` (lines 153–183), given the tenant's
credential record: try the active key first (a thrown comparison error is
caught and control falls through to the retired keys), then each retired key
newest-to-oldest. -/
def verifySignature (hmac : String → String → List Byte) (kp : KeyPair)
    (data sig : String) : Bool :=
  match timingSafeEqual (bufFromHexL (hexEncode (hmac kp.active data)).toList)
      (bufFromHexL sig.toList) with
  | .ok true => true
  | _ => tryPreviousKeys hmac data sig kp.previous

/-- `HmacKeyManager.generateHmacKey`: `crypto.randomBytes(length).toString('hex')`,
given the bytes produced by the CSPRNG. -/
def generateHmacKey (bytes : List Byte) : String :=
  hexEncode bytes

/-- The manager's mutable state: the in-memory cache (`memoryKeyCache`), the
durable records behind the configured `storageHandler` (when `hasHandler`),
and the entropy-stream counter. -/
structure ManagerState where
  cache : String → Option KeyPair
  store : String → Option KeyPair
  hasHandler : Bool
  ctr : Nat

/-- Outcome oracle for the storage-handler calls made during one public
operation: whether a `'get'` call throws, and whether a `'set'` call throws. -/
structure StorageEnv where
  getFails : Bool
  setFails : Bool

/-- Pointwise update of a string-keyed map. -/
def mapSet (m : String → Option KeyPair) (id : String) (v : Option KeyPair) :
    String → Option KeyPair :=
  fun k => if k = id then v else m k

/-- A `storageHandler('get', id)` call: either throws, or returns the stored
record (or `null`). -/
def storageGet (env : StorageEnv) (st : ManagerState) (id : String) :
    Except Unit (Option KeyPair) :=
  if env.getFails then .error () else .ok (st.store id)

/-- A `storageHandler('set', id, data?)` call: either throws (leaving the
durable records unchanged — the store never partially applies a write), or
stores the record; `none` as the payload deletes the tenant's record. -/
def storageSet (env : StorageEnv) (st : ManagerState) (id : String)
    (v : Option KeyPair) : Except Unit ManagerState :=
  if env.setFails then .error ()
  else .ok { st with store := mapSet st.store id v }

/-- `HmacKeyManager.saveKeyPair` (lines 230–242): update the memory cache,
then attempt the storage write when a handler is configured; a thrown storage
error is caught and logged (`console.warn`), never re-thrown. -/
def saveKeyPair (env : StorageEnv) (st : ManagerState) (id : String)
    (kp : KeyPair) : ManagerState :=
  let st1 := { st with cache := mapSet st.cache id (some kp) }
  if st1.hasHandler then
    match storageSet env st1 id (some kp) with
    | .ok st2 => st2
    | .error _ => st1
  else st1

/-- `HmacKeyManager.getOrCreateKeyPair` (lines 192–223): memory-cache hit
returns immediately; otherwise consult the storage handler (a thrown `'get'`
error is caught, logged, and treated as a miss); on a miss create a fresh
record with a generated active key, empty `previous` and `timestamp = now`,
and save it via `saveKeyPair`. -/
def getOrCreateKeyPair (ent : Nat → List Byte) (env : StorageEnv) (now : Nat)
    (st : ManagerState) (id : String) : KeyPair × ManagerState :=
  match st.cache id with
  | some kp => (kp, st)
  | none =>
    let fromStore : Option KeyPair :=
      if st.hasHandler then
        match storageGet env st id with
        | .ok r => r
        | .error _ => none
      else none
    match fromStore with
    | some kp => (kp, { st with cache := mapSet st.cache id (some kp) })
    | none =>
      let newKp : KeyPair := ⟨generateHmacKey (ent st.ctr), [], now⟩
      let st1 := { st with ctr := st.ctr + 1 }
      (newKp, saveKeyPair env st1 id newKp)

/-- `HmacKeyManager.getActiveHmacKey` (lines 59–62). -/
def getActiveHmacKey (ent : Nat → List Byte) (env : StorageEnv) (now : Nat)
    (st : ManagerState) (id : String) : String × ManagerState :=
  let r := getOrCreateKeyPair ent env now st id
  (r.1.active, r.2)

/-- The record transformation inside `HmacKeyManager.rotateHmacKey`
(lines 102–112): `previous.unshift(active)`, truncate with `slice(0, 5)` when
the list exceeds 5 entries, then install the new active key and stamp `now`. -/
def rotateRecord (kp : KeyPair) (newActive : String) (now : Nat) : KeyPair :=
  let prev1 := kp.active :: kp.previous
  let prev2 := if prev1.length > 5 then prev1.take 5 else prev1
  ⟨newActive, prev2, now⟩

/-- `HmacKeyManager.rotateHmacKey` (lines 99–118): fetch (or lazily create)
the record, rotate it, and save.  `keyPair.active = newKey || generateHmacKey()`
uses JavaScript truthiness: an absent — or empty-string — `newKey` selects a
freshly generated key. -/
def rotateHmacKey (ent : Nat → List Byte) (env : StorageEnv) (now : Nat)
    (st : ManagerState) (id : String) (newKey : Option String) :
    String × ManagerState :=
  let r := getOrCreateKeyPair ent env now st id
  let kp := r.1
  let st1 := r.2
  let gen : String × ManagerState :=
    (generateHmacKey (ent st1.ctr), { st1 with ctr := st1.ctr + 1 })
  let chosen : String × ManagerState :=
    match newKey with
    | some k => if k = "" then gen else (k, st1)
    | none => gen
  let kp2 := rotateRecord kp chosen.1 now
  (chosen.1, saveKeyPair env chosen.2 id kp2)

/-- `HmacKeyManager.deleteKeyPairIfExpired` (lines 69–91): fetch (or lazily
create) the record; when `now − timestamp ≥ expiryDays` in milliseconds,
delete it from the memory cache, then — when a handler is configured — attempt
the storage delete (`storageHandler('set', id)` with no data); a thrown
storage error is caught, logged, and reported as `false`. -/
def deleteKeyPairIfExpired (ent : Nat → List Byte) (env : StorageEnv)
    (now : Nat) (st : ManagerState) (id : String) (expiryDays : Nat) :
    Bool × ManagerState :=
  let r := getOrCreateKeyPair ent env now st id
  let kp := r.1
  let st1 := r.2
  let expiryTime : Int := (expiryDays : Int) * 24 * 60 * 60 * 1000
  if (now : Int) - (kp.timestamp : Int) ≥ expiryTime then
    let st2 := { st1 with cache := mapSet st1.cache id none }
    if st2.hasHandler then
      match storageSet env st2 id none with
      | .ok st3 => (true, st3)
      | .error _ => (false, st2)
    else (true, st2)
  else (false, st1)

/-- `HmacKeyManager.checkAndRotateIfDue` (lines 128–144): first run the
expiry check (a deletion suppresses the rotation check and yields `false`);
otherwise rotate — with a generated key — when `now − timestamp ≥ rotationDays`
in milliseconds, yielding `true`; otherwise `false`. -/
def checkAndRotateIfDue (ent : Nat → List Byte) (env : StorageEnv) (now : Nat)
    (st : ManagerState) (id : String) (rotationDays expiryDays : Nat) :
    Bool × ManagerState :=
  let d := deleteKeyPairIfExpired ent env now st id expiryDays
  if d.1 then (false, d.2)
  else
    let r := getOrCreateKeyPair ent env now d.2 id
    let kp := r.1
    let st2 := r.2
    let rotationDueTime : Int := (rotationDays : Int) * 24 * 60 * 60 * 1000
    if (now : Int) - (kp.timestamp : Int) ≥ rotationDueTime then
      let rot := rotateHmacKey ent env now st2 id none
      (true, rot.2)
    else (false, st2)

/-! ## Request signing (`RapydClient.signRequest`)

`src/index.ts` contains two revisions of `RapydClient`.  The earlier
revision's `signRequest` (lines 44–63) derives the path with
`config.url?.replace(this.baseURL, '')` and concatenates the tenant secret
into the signed string; the later revision's `signRequest` (lines 151–167)
derives the path with `new URL(config.url!, this.baseURL).pathname` and does
not concatenate the secret.  WHATWG URL resolution is a platform primitive
and is modelled as an abstract parameter `pathOf url baseURL`. -/

/-- The parts of an axios request config consulted by `signRequest`.  `data`
holds `JSON.stringify(config.data)` for a truthy request payload, `none` for a
bodyless request. -/
structure RequestConfig where
  method : Option String
  url : Option String
  data : Option String

/-- The headers attached by `signRequest`. -/
structure SignedHeaders where
  accessKey : String
  salt : String
  timestamp : Nat
  signature : String
deriving DecidableEq

/-- JavaScript `.toUpperCase()` (on ASCII method names), modelled by mapping
`Char.toUpper` over the character list so that closed instances evaluate. -/
def toUpperStr (s : String) : String :=
  String.mk (s.toList.map Char.toUpper)

/-- `config.method?.toUpperCase() || 'GET'` (an absent or empty method falls
back to `GET` by JavaScript truthiness). -/
def methodOf (cfg : RequestConfig) : String :=
  match cfg.method with
  | some m => if toUpperStr m = "" then "GET" else toUpperStr m
  | none => "GET"

/-- `config.data ? JSON.stringify(config.data) : ''`. -/
def bodyOf (cfg : RequestConfig) : String :=
  match cfg.data with
  | some d => d
  | none => ""

/-- Whether `p` heads the character list `s`. -/
def leadsWith : List Char → List Char → Bool
  | [], _ => true
  | _ :: _, [] => false
  | p :: ps, c :: cs => p = c && leadsWith ps cs

/-- JavaScript `s.replace(pat, '')` with a string pattern: remove the first
occurrence of `pat` from `s` (with an empty pattern the empty replacement is
inserted at the start, leaving `s` unchanged). -/
def removeFirstOcc (s pat : List Char) : List Char :=
  if pat = [] then s else go s
where
  go : List Char → List Char
    | [] => []
    | c :: cs => if leadsWith pat (c :: cs) then (c :: cs).drop pat.length else c :: go cs

/-- The canonical string of the earlier `signRequest` (lines 44–63):
`httpMethod + path + salt + timestamp + accessKey + secretKey + body`, with
`path = config.url?.replace(baseURL, '') || ''`.  Note that the tenant secret
is concatenated into the message. -/
def toSignV1 (accessKey secretKey baseURL : String) (cfg : RequestConfig)
    (salt : String) (timestamp : Nat) : String :=
  let path : String :=
    match cfg.url with
    | some u => String.mk (removeFirstOcc u.toList baseURL.toList)
    | none => ""
  methodOf cfg ++ path ++ salt ++ toString timestamp ++ accessKey ++ secretKey ++ bodyOf cfg

/-- The earlier `signRequest` (lines 44–63): headers built from `toSignV1`,
the signature being the hex HMAC-SHA256 of it under the secret key. -/
def signRequestV1 (hmac : String → String → List Byte)
    (accessKey secretKey baseURL : String) (cfg : RequestConfig)
    (salt : String) (timestamp : Nat) : SignedHeaders :=
  ⟨accessKey, salt, timestamp,
    hexEncode (hmac secretKey (toSignV1 accessKey secretKey baseURL cfg salt timestamp))⟩

/-- The canonical string of the later `signRequest` (lines 151–167):
`${httpMethod}${urlPath}${salt}${timestamp}${accessKey}${body}`, with
`urlPath = new URL(config.url!, baseURL).pathname` (modelled by `pathOf`).
The tenant secret does not occur in it. -/
def toSignV2 (pathOf : String → String → String) (accessKey baseURL : String)
    (cfg : RequestConfig) (salt : String) (timestamp : Nat) : String :=
  let urlPath := pathOf (cfg.url.getD "") baseURL
  methodOf cfg ++ urlPath ++ salt ++ toString timestamp ++ accessKey ++ bodyOf cfg

/-- The later `signRequest` (lines 151–167): headers built from `toSignV2`,
the signature being the hex HMAC-SHA256 of it under the secret key — the
secret enters only as the HMAC key. -/
def signRequestV2 (hmac : String → String → List Byte)
    (pathOf : String → String → String) (accessKey secretKey baseURL : String)
    (cfg : RequestConfig) (salt : String) (timestamp : Nat) : SignedHeaders :=
  ⟨accessKey, salt, timestamp,
    hexEncode (hmac secretKey (toSignV2 pathOf accessKey baseURL cfg salt timestamp))⟩

/-! ## Helper lemmas -/

theorem hexDigitVal?_hexDigitChar : ∀ n : Fin 16,
    hexDigitVal? (hexDigitChar n.val) = some n.val := by
  decide

theorem toList_hexEncode (bs : List Byte) :
    (hexEncode bs).toList = hexEncodeL bs := rfl

theorem bufFromHexL_hexEncodeL (bs : List Byte) :
    bufFromHexL (hexEncodeL bs) = bs := by
  induction bs with
  | nil => rfl
  | cons b bs ih =>
    have hdiv : b.val / 16 < 16 := by omega
    have hmod : b.val % 16 < 16 := Nat.mod_lt _ (by decide)
    have h1 := hexDigitVal?_hexDigitChar ⟨b.val / 16, hdiv⟩
    have h2 := hexDigitVal?_hexDigitChar ⟨b.val % 16, hmod⟩
    simp only [hexEncodeL, hexEncodeByte, List.append_eq, List.cons_append,
      List.nil_append, bufFromHexL, h1, h2]
    rw [ih]
    congr 1
    apply Fin.ext
    simp only []
    have : 16 * (b.val / 16) + b.val % 16 = b.val := Nat.div_add_mod b.val 16
    rw [this, Nat.mod_eq_of_lt b.isLt]

theorem timingSafeEqual_ok_true_iff (a b : List Byte) :
    timingSafeEqual a b = .ok true ↔ a = b := by
  unfold timingSafeEqual
  by_cases h : a.length = b.length
  · simp [h]
  · simp only [h, if_false]
    constructor
    · intro hc; cases hc
    · intro hab; exact absurd (congrArg List.length hab) h

theorem tryPreviousKeys_iff (hmac : String → String → List Byte)
    (data sig : String) (ks : List String) :
    tryPreviousKeys hmac data sig ks = true ↔
      ∃ k ∈ ks, hmac k data = bufFromHexL sig.toList := by
  induction ks with
  | nil => simp [tryPreviousKeys]
  | cons k ks ih =>
    rw [tryPreviousKeys]
    rw [toList_hexEncode, bufFromHexL_hexEncodeL]
    by_cases h : hmac k data = bufFromHexL sig.toList
    · rw [(timingSafeEqual_ok_true_iff _ _).mpr h]
      simp [h]
    · have : timingSafeEqual (hmac k data) (bufFromHexL sig.toList) ≠ .ok true :=
        fun hc => h ((timingSafeEqual_ok_true_iff _ _).mp hc)
      rcases he : timingSafeEqual (hmac k data) (bufFromHexL sig.toList) with e | b
      · simp only [ih]
        constructor
        · intro hx; rcases hx with ⟨k', hk', hh⟩; exact ⟨k', List.mem_cons_of_mem _ hk', hh⟩
        · rintro ⟨k', hk', hh⟩
          rcases List.mem_cons.mp hk' with rfl | hk'
          · exact absurd hh h
          · exact ⟨k', hk', hh⟩
      · have hb : b = false := by
          cases b
          · rfl
          · exact absurd he this
        subst hb
        simp only [ih]
        constructor
        · intro hx; rcases hx with ⟨k', hk', hh⟩; exact ⟨k', List.mem_cons_of_mem _ hk', hh⟩
        · rintro ⟨k', hk', hh⟩
          rcases List.mem_cons.mp hk' with rfl | hk'
          · exact absurd hh h
          · exact ⟨k', hk', hh⟩

theorem verifySignature_iff (hmac : String → String → List Byte) (kp : KeyPair)
    (data sig : String) :
    verifySignature hmac kp data sig = true ↔
      ∃ k ∈ kp.active :: kp.previous, hmac k data = bufFromHexL sig.toList := by
  rw [verifySignature]
  rw [toList_hexEncode, bufFromHexL_hexEncodeL]
  by_cases h : hmac kp.active data = bufFromHexL sig.toList
  · rw [(timingSafeEqual_ok_true_iff _ _).mpr h]
    exact ⟨fun _ => ⟨kp.active, List.mem_cons_self _ _, h⟩, fun _ => rfl⟩
  · have hne : timingSafeEqual (hmac kp.active data) (bufFromHexL sig.toList) ≠ .ok true :=
      fun hc => h ((timingSafeEqual_ok_true_iff _ _).mp hc)
    rcases he : timingSafeEqual (hmac kp.active data) (bufFromHexL sig.toList) with e | b
    · rw [tryPreviousKeys_iff]
      constructor
      · rintro ⟨k', hk', hh⟩; exact ⟨k', List.mem_cons_of_mem _ hk', hh⟩
      · rintro ⟨k', hk', hh⟩
        rcases List.mem_cons.mp hk' with rfl | hk'
        · exact absurd hh h
        · exact ⟨k', hk', hh⟩
    · have hb : b = false := by
        cases b
        · rfl
        · exact absurd he hne
      subst hb
      rw [tryPreviousKeys_iff]
      constructor
      · rintro ⟨k', hk', hh⟩; exact ⟨k', List.mem_cons_of_mem _ hk', hh⟩
      · rintro ⟨k', hk', hh⟩
        rcases List.mem_cons.mp hk' with rfl | hk'
        · exact absurd hh h
        · exact ⟨k', hk', hh⟩

theorem mapSet_self (m : String → Option KeyPair) (id : String)
    (v : Option KeyPair) : mapSet m id v id = v := by
  simp [mapSet]

theorem saveKeyPair_cache (env : StorageEnv) (st : ManagerState) (id : String)
    (kp : KeyPair) :
    (saveKeyPair env st id kp).cache = mapSet st.cache id (some kp) := by
  unfold saveKeyPair storageSet
  by_cases h : st.hasHandler <;> by_cases h2 : env.setFails <;> simp [h, h2]

theorem saveKeyPair_store_ok (env : StorageEnv) (st : ManagerState)
    (id : String) (kp : KeyPair) (h2 : env.setFails = false) :
    (saveKeyPair env st id kp).store =
      if st.hasHandler then mapSet st.store id (some kp) else st.store := by
  unfold saveKeyPair storageSet
  by_cases h : st.hasHandler <;> simp [h, h2]

theorem saveKeyPair_store_fail (env : StorageEnv) (st : ManagerState)
    (id : String) (kp : KeyPair) (h2 : env.setFails = true) :
    (saveKeyPair env st id kp).store = st.store := by
  unfold saveKeyPair storageSet
  by_cases h : st.hasHandler <;> simp [h, h2]

theorem getOrCreateKeyPair_cacheHit (ent : Nat → List Byte) (env : StorageEnv)
    (now : Nat) (st : ManagerState) (id : String) (r : KeyPair)
    (hc : st.cache id = some r) :
    getOrCreateKeyPair ent env now st id = (r, st) := by
  unfold getOrCreateKeyPair
  simp [hc]

/-- After any `getOrCreateKeyPair` call the memory cache holds the returned
record under the tenant id. -/
theorem getOrCreateKeyPair_cache_self (ent : Nat → List Byte)
    (env : StorageEnv) (now : Nat) (st : ManagerState) (id : String) :
    ((getOrCreateKeyPair ent env now st id).2).cache id =
      some (getOrCreateKeyPair ent env now st id).1 := by
  unfold getOrCreateKeyPair
  cases hc : st.cache id with
  | some kp => simp [hc]
  | none =>
    by_cases hh : st.hasHandler
    · by_cases hg : env.getFails
      · simp [hc, hh, hg, storageGet, saveKeyPair_cache, mapSet_self]
      · cases hs : st.store id with
        | some kp => simp [hc, hh, hg, hs, storageGet, mapSet_self]
        | none => simp [hc, hh, hg, hs, storageGet, saveKeyPair_cache, mapSet_self]
    · simp [hc, hh, saveKeyPair_cache, mapSet_self]

theorem rotateHmacKey_cacheHit (ent : Nat → List Byte) (env : StorageEnv)
    (now : Nat) (st : ManagerState) (id : String) (r : KeyPair) (k : String)
    (hc : st.cache id = some r) (hk : k ≠ "") :
    rotateHmacKey ent env now st id (some k) =
      (k, saveKeyPair env st id (rotateRecord r k now)) := by
  unfold rotateHmacKey
  rw [getOrCreateKeyPair_cacheHit ent env now st id r hc]
  simp [hk]

theorem rotateHmacKey_cacheHit_gen (ent : Nat → List Byte) (env : StorageEnv)
    (now : Nat) (st : ManagerState) (id : String) (r : KeyPair)
    (hc : st.cache id = some r) :
    rotateHmacKey ent env now st id none =
      (generateHmacKey (ent st.ctr),
        saveKeyPair env { st with ctr := st.ctr + 1 } id
          (rotateRecord r (generateHmacKey (ent st.ctr)) now)) := by
  unfold rotateHmacKey
  rw [getOrCreateKeyPair_cacheHit ent env now st id r hc]

theorem rotateRecord_previous (kp : KeyPair) (k : String) (t : Nat) :
    (rotateRecord kp k t).previous = (kp.active :: kp.previous).take 5 := by
  unfold rotateRecord
  by_cases h : (kp.active :: kp.previous).length > 5
  · simp [h]
  · simp [h, List.take_of_length_le (Nat.le_of_not_lt h)]

/-- A sequence of record rotations, each with its installed key and its
`Date.now()` value. -/
def iterRotRecord (kp : KeyPair) (l : List (String × Nat)) : KeyPair :=
  l.foldl (fun r p => rotateRecord r p.1 p.2) kp

theorem take_append_take (n : Nat) (A B : List String) :
    (A ++ B.take n).take n = (A ++ B).take n := by
  rw [List.take_append_eq_append_take, List.take_append_eq_append_take,
    List.take_take, Nat.min_eq_left (Nat.sub_le n A.length)]

theorem iterRotRecord_previous (l : List (String × Nat)) :
    ∀ kp : KeyPair, l ≠ [] →
      (iterRotRecord kp l).previous =
        ((kp.active :: l.map Prod.fst).dropLast.reverse ++ kp.previous).take 5 := by
  induction l with
  | nil => intro kp h; exact absurd rfl h
  | cons p l' ih =>
    intro kp _
    cases l' with
    | nil =>
      have hstep : iterRotRecord kp [p] = rotateRecord kp p.1 p.2 := rfl
      rw [hstep, rotateRecord_previous]
      rfl
    | cons q l'' =>
      have hstep : iterRotRecord kp (p :: q :: l'') =
          iterRotRecord (rotateRecord kp p.1 p.2) (q :: l'') := rfl
      rw [hstep, ih _ (by simp)]
      have hact : (rotateRecord kp p.1 p.2).active = p.1 := rfl
      rw [hact, rotateRecord_previous]
      simp only [List.map_cons]
      conv_rhs => rw [List.dropLast_cons₂, List.reverse_cons, List.append_assoc,
        List.singleton_append]
      exact take_append_take 5 _ _

/-- Starting from a freshly created record (empty `previous`), the retired-key
list after a sequence of rotations is exactly the (up to) five most recent
prior active keys, newest first. -/
theorem iterRotRecord_fresh_previous (a0 : String) (t0 : Nat)
    (l : List (String × Nat)) :
    (iterRotRecord ⟨a0, [], t0⟩ l).previous =
      ((a0 :: l.map Prod.fst).dropLast.reverse).take 5 := by
  cases l with
  | nil => simp [iterRotRecord, List.take]
  | cons p l' =>
    rw [iterRotRecord_previous _ _ (by simp)]
    simp

/-! ## Concrete instances used by counterexamples and witnesses -/

/-- A fixed entropy stream: every `randomBytes` call yields the byte `0`,
so every generated key is the hex string `"00"`. -/
def entDemo : Nat → List Byte := fun _ => [0]

/-- Storage-handler oracle: no call throws. -/
def envOk : StorageEnv := ⟨false, false⟩

/-- Storage-handler oracle: the `'set'` call throws. -/
def envSetFail : StorageEnv := ⟨false, true⟩

/-- A tenant record created at time `0`. -/
def demoRecord : KeyPair := ⟨"a0", [], 0⟩

/-- Manager state with a configured storage handler, holding record `r` for
tenant `"t"` in both cache and store. -/
def demoStateH (r : KeyPair) : ManagerState :=
  ⟨fun k => if k = "t" then some r else none,
   fun k => if k = "t" then some r else none, true, 0⟩

/-- Manager state with no storage handler, holding record `r` for tenant
`"t"` in the cache. -/
def demoStateNoH (r : KeyPair) : ManagerState :=
  ⟨fun k => if k = "t" then some r else none, fun _ => none, false, 0⟩

/-- A concrete stand-in for HMAC-SHA256 used to evaluate the verifier on
closed inputs: the digest is the byte sequence of `key ++ data`. -/
def hmacDemo (k d : String) : List Byte :=
  (k ++ d).toList.map fun c => ⟨c.toNat % 256, Nat.mod_lt _ (by decide)⟩

/-- A concrete stand-in for WHATWG URL resolution on the demo request. -/
def pathOfDemo : String → String → String := fun _ _ => "/v1/payments"

/-- A sequence of `rotateHmacKey` calls, each with its optional explicit new
key and its `Date.now()` value. -/
def rotateTimes (ent : Nat → List Byte) (env : StorageEnv) (st : ManagerState)
    (id : String) : List (Option String × Nat) → ManagerState
  | [] => st
  | (k, t) :: rest => rotateTimes ent env (rotateHmacKey ent env t st id k).2 id rest

theorem rotateTimes_ten :
    (rotateTimes entDemo envOk (demoStateNoH demoRecord) "t"
      [(some "k1", 1), (some "k2", 2), (some "k3", 3), (some "k4", 4),
       (some "k5", 5), (some "k6", 6), (some "k7", 7), (some "k8", 8),
       (some "k9", 9), (some "k10", 10)]).cache "t" =
      some ⟨"k10", ["k9", "k8", "k7", "k6", "k5"], 10⟩ := by
  decide

theorem tryPreviousKeys_structural (hmac : String → String → List Byte)
    (data sig : String) (ks : List String)
    (h : ∀ k ∈ ks, (hmac k data).length ≠ (bufFromHexL sig.toList).length) :
    tryPreviousKeys hmac data sig ks = false := by
  induction ks with
  | nil => rfl
  | cons k ks ih =>
    rw [tryPreviousKeys, toList_hexEncode, bufFromHexL_hexEncodeL]
    have he : timingSafeEqual (hmac k data) (bufFromHexL sig.toList) = .error () := by
      unfold timingSafeEqual
      rw [if_neg (h k (List.mem_cons_self _ _))]
    rw [he]
    exact ih fun k' hk' => h k' (List.mem_cons_of_mem _ hk')

/-! ## Claim theorems -/

/-- C6: for every record and every sequence of rotations, the `previous` list
never exceeds 5 entries; starting from a freshly created record it is exactly
the (up to) five most recent prior active keys, newest first, the oldest
evicted first; and ten consecutive rotations of tenant `"t"` through
`rotateHmacKey` leave exactly the five most recent prior actives
`["k9","k8","k7","k6","k5"]`. -/
theorem c6_previous_window :
    (∀ (kp : KeyPair) (k : String) (t : Nat),
      (rotateRecord kp k t).previous.length ≤ 5) ∧
    (∀ (a0 : String) (t0 : Nat) (l : List (String × Nat)),
      (iterRotRecord ⟨a0, [], t0⟩ l).previous =
        ((a0 :: l.map Prod.fst).dropLast.reverse).take 5) ∧
    (rotateTimes entDemo envOk (demoStateNoH demoRecord) "t"
      [(some "k1", 1), (some "k2", 2), (some "k3", 3), (some "k4", 4),
       (some "k5", 5), (some "k6", 6), (some "k7", 7), (some "k8", 8),
       (some "k9", 9), (some "k10", 10)]).cache "t" =
      some ⟨"k10", ["k9", "k8", "k7", "k6", "k5"], 10⟩ := by
  refine ⟨fun kp k t => ?_, iterRotRecord_fresh_previous, rotateTimes_ten⟩
  rw [rotateRecord_previous]
  calc ((kp.active :: kp.previous).take 5).length ≤ 5 := by
        rw [List.length_take]; exact Nat.min_le_left _ _

/-- C7: `verifySignature` accepts exactly the signatures whose hex decoding is
the digest of the message under the active key or one of the retained
previous keys; and in the e2e scenario — a record created with active key
`"a0"` then rotated six times — the key retired by rotation #1 (`"a0"`, now
outside the 5-slot window) fails verification while the key retired by
rotation #2 (`"k1"`, the key rotation #1 installed, still retained) and the
current key `"k6"` succeed. -/
theorem c7_verify_grace_window :
    (∀ (hmac : String → String → List Byte) (kp : KeyPair) (data sig : String),
      verifySignature hmac kp data sig = true ↔
        ∃ k ∈ kp.active :: kp.previous, hmac k data = bufFromHexL sig.toList) ∧
    ((rotateTimes entDemo envOk (demoStateNoH demoRecord) "t"
        [(some "k1", 1), (some "k2", 2), (some "k3", 3), (some "k4", 4),
         (some "k5", 5), (some "k6", 6)]).cache "t" =
        some ⟨"k6", ["k5", "k4", "k3", "k2", "k1"], 6⟩ ∧
      verifySignature hmacDemo ⟨"k6", ["k5", "k4", "k3", "k2", "k1"], 6⟩ "m"
        (hexEncode (hmacDemo "a0" "m")) = false ∧
      verifySignature hmacDemo ⟨"k6", ["k5", "k4", "k3", "k2", "k1"], 6⟩ "m"
        (hexEncode (hmacDemo "k1" "m")) = true ∧
      verifySignature hmacDemo ⟨"k6", ["k5", "k4", "k3", "k2", "k1"], 6⟩ "m"
        (hexEncode (hmacDemo "k6" "m")) = true) :=
  ⟨verifySignature_iff, by decide⟩

/-- C8: when every constant-time comparison fails structurally (the provided
signature's hex decoding differs in length from every candidate digest, which
makes `crypto.timingSafeEqual` throw), `verifySignature` treats the failure as
a mismatch and returns `false` — the thrown comparison errors are caught and
never escape the call. -/
theorem c8_structural_failure_is_mismatch (hmac : String → String → List Byte)
    (kp : KeyPair) (data sig : String)
    (h : ∀ k ∈ kp.active :: kp.previous,
      (hmac k data).length ≠ (bufFromHexL sig.toList).length) :
    verifySignature hmac kp data sig = false := by
  rw [verifySignature, toList_hexEncode, bufFromHexL_hexEncodeL]
  have he : timingSafeEqual (hmac kp.active data) (bufFromHexL sig.toList) = .error () := by
    unfold timingSafeEqual
    rw [if_neg (h kp.active (List.mem_cons_self _ _))]
  rw [he]
  exact tryPreviousKeys_structural hmac data sig kp.previous
    fun k' hk' => h k' (List.mem_cons_of_mem _ hk')

/-- Witness for C8: a malformed three-character signature `"abc"` decodes to a
single byte, every digest of the two-key record has two bytes, every
comparison throws, and the call returns `false`. -/
theorem c8_witness :
    verifySignature (fun _ _ => [(0 : Byte), 0]) ⟨"a", ["b"], 0⟩ "m" "abc" = false :=
  c8_structural_failure_is_mismatch _ _ _ _ (by decide)

/-- C9: two consecutive `getActiveHmacKey` calls for the same tenant with no
intervening mutation return identical values, whatever the entropy, storage
outcomes and clock of each call. -/
theorem c9_getActiveKey_stable (ent1 ent2 : Nat → List Byte)
    (env1 env2 : StorageEnv) (now1 now2 : Nat) (st : ManagerState)
    (id : String) :
    (getActiveHmacKey ent2 env2 now2 (getActiveHmacKey ent1 env1 now1 st id).2 id).1 =
      (getActiveHmacKey ent1 env1 now1 st id).1 := by
  unfold getActiveHmacKey
  rw [getOrCreateKeyPair_cacheHit ent2 env2 now2 _ id _
    (getOrCreateKeyPair_cache_self ent1 env1 now1 st id)]

/-- The demo request: `POST https://api.rapyd.net/v1/payments` with the
serialized body from the spec's fixed vector. -/
def cfgDemo : RequestConfig :=
  ⟨some "post", some "https://api.rapyd.net/v1/payments", some "\x7b\"amount\":100\x7d"⟩

/-- Counterexample to C1: the earlier `signRequest` revision (lines 44–63)
does not hash `method + path + salt + timestamp + accessKeyId + body` — it
concatenates the tenant secret into the canonical string, between the access
key and the body. -/
theorem c1_counterexample :
    toSignV1 "ak_1" "sk_1" "https://api.rapyd.net" cfgDemo "abcd1234" 1700000000 =
      "POST/v1/paymentsabcd12341700000000ak_1sk_1\x7b\"amount\":100\x7d" ∧
    toSignV1 "ak_1" "sk_1" "https://api.rapyd.net" cfgDemo "abcd1234" 1700000000 ≠
      "POST" ++ "/v1/payments" ++ "abcd1234" ++ toString (1700000000 : Nat) ++
        "ak_1" ++ "\x7b\"amount\":100\x7d" := by
  decide

/-- C1 (amended): the later `signRequest` revision (lines 151–167) hashes
exactly `method + path + salt + timestamp + accessKeyId + body` (method
upper-cased, body the serialized payload or empty), and the secret enters the
signature only as the HMAC key — the canonical string `toSignV2` is built
without it.  The earlier revision (lines 44–63) additionally concatenates the
secret into the message (see the counterexample). -/
theorem c1_canonical_string (hmac : String → String → List Byte)
    (pathOf : String → String → String)
    (accessKey secretKey baseURL m u salt : String) (b : Option String)
    (ts : Nat) (hm : toUpperStr m ≠ "") :
    (signRequestV2 hmac pathOf accessKey secretKey baseURL
        ⟨some m, some u, b⟩ salt ts).signature =
      hexEncode (hmac secretKey
        (toUpperStr m ++ pathOf u baseURL ++ salt ++ toString ts ++ accessKey ++ b.getD "")) ∧
    toSignV2 pathOf accessKey baseURL ⟨some m, some u, b⟩ salt ts =
      toUpperStr m ++ pathOf u baseURL ++ salt ++ toString ts ++ accessKey ++ b.getD "" := by
  have hmm : methodOf ⟨some m, some u, b⟩ = toUpperStr m := by
    simp [methodOf, hm]
  have hb : bodyOf ⟨some m, some u, b⟩ = b.getD "" := by
    cases b <;> rfl
  have h2 : toSignV2 pathOf accessKey baseURL ⟨some m, some u, b⟩ salt ts =
      toUpperStr m ++ pathOf u baseURL ++ salt ++ toString ts ++ accessKey ++ b.getD "" := by
    simp only [toSignV2, hmm, hb, Option.getD_some]
  exact ⟨by simp only [signRequestV2, h2], h2⟩

/-- Witness for C1 (amended), on the spec's fixed vector. -/
theorem c1_witness :
    (signRequestV2 hmacDemo pathOfDemo "ak_1" "sk_1" "https://api.rapyd.net"
        ⟨some "post", some "https://api.rapyd.net/v1/payments",
          some "\x7b\"amount\":100\x7d"⟩ "abcd1234" 1700000000).signature =
      hexEncode (hmacDemo "sk_1"
        (toUpperStr "post" ++
          pathOfDemo "https://api.rapyd.net/v1/payments" "https://api.rapyd.net" ++
          "abcd1234" ++ toString (1700000000 : Nat) ++ "ak_1" ++
          (some "\x7b\"amount\":100\x7d").getD "")) ∧
    toSignV2 pathOfDemo "ak_1" "https://api.rapyd.net"
        ⟨some "post", some "https://api.rapyd.net/v1/payments",
          some "\x7b\"amount\":100\x7d"⟩ "abcd1234" 1700000000 =
      toUpperStr "post" ++
        pathOfDemo "https://api.rapyd.net/v1/payments" "https://api.rapyd.net" ++
        "abcd1234" ++ toString (1700000000 : Nat) ++ "ak_1" ++
        (some "\x7b\"amount\":100\x7d").getD "" :=
  c1_canonical_string hmacDemo pathOfDemo "ak_1" "sk_1" "https://api.rapyd.net"
    "post" "https://api.rapyd.net/v1/payments" "abcd1234"
    (some "\x7b\"amount\":100\x7d") 1700000000 (by decide)

/-- Counterexample to C5: `keyPair.active = newKey || generateHmacKey()` uses
JavaScript truthiness, so a supplied empty-string `newKey` is discarded and a
generated key (here `"00"`) becomes active instead of the supplied value. -/
theorem c5_counterexample :
    (rotateHmacKey entDemo envOk 5 (demoStateNoH demoRecord) "t" (some "")).1 = "00" ∧
    (rotateHmacKey entDemo envOk 5 (demoStateNoH demoRecord) "t" (some "")).1 ≠ "" := by
  decide

/-- C5 (amended): for a tenant with record `r`, `rotateHmacKey` installs the
supplied `newKey` when it is non-empty (and a freshly generated key when
`newKey` is absent — or empty, by JavaScript truthiness), pushes `r.active`
onto the head of `previous` (truncated to 5), stamps `now`, returns the new
active, and the updated record is cached and persisted. -/
theorem c5_rotate_spec (ent : Nat → List Byte) (env : StorageEnv) (now : Nat)
    (st : ManagerState) (id : String) (r : KeyPair) (k : String)
    (hc : st.cache id = some r) (hh : st.hasHandler = true)
    (hs : env.setFails = false) (hk : k ≠ "") :
    ((rotateHmacKey ent env now st id (some k)).1 = k ∧
      (rotateHmacKey ent env now st id (some k)).2.cache id =
        some (rotateRecord r k now) ∧
      (rotateHmacKey ent env now st id (some k)).2.store id =
        some (rotateRecord r k now)) ∧
    ((rotateHmacKey ent env now st id none).1 = generateHmacKey (ent st.ctr) ∧
      (rotateHmacKey ent env now st id none).2.cache id =
        some (rotateRecord r (generateHmacKey (ent st.ctr)) now) ∧
      (rotateHmacKey ent env now st id none).2.store id =
        some (rotateRecord r (generateHmacKey (ent st.ctr)) now)) ∧
    (rotateRecord r k now).previous = (r.active :: r.previous).take 5 ∧
    (rotateRecord r k now).previous.head? = some r.active ∧
    (rotateRecord r k now).active = k ∧
    (rotateRecord r k now).timestamp = now := by
  have hcache : ∀ kp : KeyPair, (saveKeyPair env st id kp).cache id = some kp := by
    intro kp
    rw [saveKeyPair_cache, mapSet_self]
  have hstore : ∀ kp : KeyPair, (saveKeyPair env st id kp).store id = some kp := by
    intro kp
    rw [saveKeyPair_store_ok env st id kp hs, hh, if_pos rfl, mapSet_self]
  refine ⟨?_, ?_, rotateRecord_previous r k now, ?_, rfl, rfl⟩
  · rw [rotateHmacKey_cacheHit ent env now st id r k hc hk]
    exact ⟨rfl, hcache _, hstore _⟩
  · rw [rotateHmacKey_cacheHit_gen ent env now st id r hc]
    refine ⟨rfl, ?_, ?_⟩
    · rw [saveKeyPair_cache, mapSet_self]
    · rw [saveKeyPair_store_ok _ _ _ _ hs]
      simp only [hh, if_pos]
      rw [mapSet_self]
  · rw [rotateRecord_previous]
    cases r.previous <;> rfl

/-- Witness for C5 (amended), rotating tenant `"t"` with explicit key
`"nk"`. -/
theorem c5_witness :
    (rotateHmacKey entDemo envOk 5 (demoStateH demoRecord) "t" (some "nk")).1 = "nk" ∧
    (rotateHmacKey entDemo envOk 5 (demoStateH demoRecord) "t" (some "nk")).2.cache "t" =
      some (rotateRecord demoRecord "nk" 5) ∧
    (rotateHmacKey entDemo envOk 5 (demoStateH demoRecord) "t" (some "nk")).2.store "t" =
      some (rotateRecord demoRecord "nk" 5) :=
  (c5_rotate_spec entDemo envOk 5 (demoStateH demoRecord) "t" demoRecord "nk"
    (by decide) rfl rfl (by decide)).1

theorem deleteKeyPairIfExpired_hit_notExpired (ent : Nat → List Byte)
    (env : StorageEnv) (now : Nat) (st : ManagerState) (id : String)
    (r : KeyPair) (expiryDays : Nat) (hc : st.cache id = some r)
    (h : ¬ ((now : Int) - (r.timestamp : Int) ≥
      (expiryDays : Int) * 24 * 60 * 60 * 1000)) :
    deleteKeyPairIfExpired ent env now st id expiryDays = (false, st) := by
  unfold deleteKeyPairIfExpired
  rw [getOrCreateKeyPair_cacheHit ent env now st id r hc]
  simp only [if_neg h]

theorem deleteKeyPairIfExpired_hit_expired_ok (ent : Nat → List Byte)
    (env : StorageEnv) (now : Nat) (st : ManagerState) (id : String)
    (r : KeyPair) (expiryDays : Nat) (hc : st.cache id = some r)
    (hh : st.hasHandler = true) (hs : env.setFails = false)
    (h : (now : Int) - (r.timestamp : Int) ≥
      (expiryDays : Int) * 24 * 60 * 60 * 1000) :
    deleteKeyPairIfExpired ent env now st id expiryDays =
      (true, { st with cache := mapSet st.cache id none,
                       store := mapSet st.store id none }) := by
  unfold deleteKeyPairIfExpired storageSet
  rw [getOrCreateKeyPair_cacheHit ent env now st id r hc]
  simp only [if_pos h, hh, hs, if_pos rfl, Bool.false_eq_true, if_false, if_true]

theorem deleteKeyPairIfExpired_hit_expired_setFail (ent : Nat → List Byte)
    (env : StorageEnv) (now : Nat) (st : ManagerState) (id : String)
    (r : KeyPair) (expiryDays : Nat) (hc : st.cache id = some r)
    (hh : st.hasHandler = true) (hsf : env.setFails = true)
    (h : (now : Int) - (r.timestamp : Int) ≥
      (expiryDays : Int) * 24 * 60 * 60 * 1000) :
    deleteKeyPairIfExpired ent env now st id expiryDays =
      (false, { st with cache := mapSet st.cache id none }) := by
  unfold deleteKeyPairIfExpired storageSet
  rw [getOrCreateKeyPair_cacheHit ent env now st id r hc]
  simp only [if_pos h, hh, hsf, if_true]

theorem getOrCreateKeyPair_miss (ent : Nat → List Byte) (env : StorageEnv)
    (now : Nat) (st : ManagerState) (id : String)
    (hcn : st.cache id = none) (hsn : st.store id = none)
    (hg : env.getFails = false) :
    getOrCreateKeyPair ent env now st id =
      (⟨generateHmacKey (ent st.ctr), [], now⟩,
        saveKeyPair env { st with ctr := st.ctr + 1 } id
          ⟨generateHmacKey (ent st.ctr), [], now⟩) := by
  unfold getOrCreateKeyPair storageGet
  by_cases hh : st.hasHandler <;> simp [hcn, hsn, hg, hh]

/-- Counterexample to C2: `checkAndRotateIfDue` does not return a three-valued
`Deleted | Rotated | NoOp` result — it returns a boolean, and the `Deleted`
outcome (first run: record expired and removed) yields the same value `false`
as the `NoOp` outcome (second run: nothing due, record untouched). -/
theorem c2_counterexample :
    (checkAndRotateIfDue entDemo envOk (86400000 * 400) (demoStateH demoRecord)
      "t" 90 1).1 = false ∧
    (checkAndRotateIfDue entDemo envOk (86400000 * 400) (demoStateH demoRecord)
      "t" 90 1).2.cache "t" = none ∧
    (checkAndRotateIfDue entDemo envOk 0 (demoStateH demoRecord)
      "t" 90 365).1 = false ∧
    (checkAndRotateIfDue entDemo envOk 0 (demoStateH demoRecord)
      "t" 90 365).2.cache "t" = some demoRecord := by
  decide

/-- C2 (amended): for a tenant with an existing record and a working store,
`checkAndRotateIfDue` keeps the claimed branch structure but reports it as a
boolean: when `now − lastRotatedAt ≥ expiryThresholdDays` the record is
deleted from cache and store, no rotation follows, and the result is `false`
(indistinguishable from no-op); else when `now − lastRotatedAt ≥
rotationThresholdDays` a rotation is performed and the result is `true`; else
nothing changes and the result is `false`. -/
theorem c2_check_and_rotate (ent : Nat → List Byte) (env : StorageEnv)
    (now : Nat) (st : ManagerState) (id : String) (r : KeyPair)
    (rotationDays expiryDays : Nat) (hc : st.cache id = some r)
    (hh : st.hasHandler = true) (hs : env.setFails = false) :
    ((now : Int) - (r.timestamp : Int) ≥ (expiryDays : Int) * 24 * 60 * 60 * 1000 →
      (checkAndRotateIfDue ent env now st id rotationDays expiryDays).1 = false ∧
      (checkAndRotateIfDue ent env now st id rotationDays expiryDays).2.cache id = none ∧
      (checkAndRotateIfDue ent env now st id rotationDays expiryDays).2.store id = none) ∧
    (¬ ((now : Int) - (r.timestamp : Int) ≥ (expiryDays : Int) * 24 * 60 * 60 * 1000) →
      (now : Int) - (r.timestamp : Int) ≥ (rotationDays : Int) * 24 * 60 * 60 * 1000 →
      (checkAndRotateIfDue ent env now st id rotationDays expiryDays).1 = true ∧
      (checkAndRotateIfDue ent env now st id rotationDays expiryDays).2.cache id =
        some (rotateRecord r (generateHmacKey (ent st.ctr)) now) ∧
      (checkAndRotateIfDue ent env now st id rotationDays expiryDays).2.store id =
        some (rotateRecord r (generateHmacKey (ent st.ctr)) now)) ∧
    (¬ ((now : Int) - (r.timestamp : Int) ≥ (expiryDays : Int) * 24 * 60 * 60 * 1000) →
      ¬ ((now : Int) - (r.timestamp : Int) ≥ (rotationDays : Int) * 24 * 60 * 60 * 1000) →
      checkAndRotateIfDue ent env now st id rotationDays expiryDays = (false, st)) := by
  refine ⟨fun hexp => ?_, fun hnexp hrot => ?_, fun hnexp hnrot => ?_⟩
  · have hrun : checkAndRotateIfDue ent env now st id rotationDays expiryDays =
        (false, { st with cache := mapSet st.cache id none,
                          store := mapSet st.store id none }) := by
      unfold checkAndRotateIfDue
      rw [deleteKeyPairIfExpired_hit_expired_ok ent env now st id r expiryDays hc hh hs hexp]
      exact rfl
    rw [hrun]
    exact ⟨rfl, mapSet_self _ _ _, mapSet_self _ _ _⟩
  · have hrun : checkAndRotateIfDue ent env now st id rotationDays expiryDays =
        (true, saveKeyPair env { st with ctr := st.ctr + 1 } id
          (rotateRecord r (generateHmacKey (ent st.ctr)) now)) := by
      unfold checkAndRotateIfDue
      rw [deleteKeyPairIfExpired_hit_notExpired ent env now st id r expiryDays hc hnexp]
      dsimp only
      rw [getOrCreateKeyPair_cacheHit ent env now st id r hc]
      dsimp only
      rw [if_pos hrot, rotateHmacKey_cacheHit_gen ent env now st id r hc]
      exact rfl
    rw [hrun]
    dsimp only
    refine ⟨rfl, ?_, ?_⟩
    · rw [saveKeyPair_cache, mapSet_self]
    · rw [saveKeyPair_store_ok _ _ _ _ hs]
      simp only [hh, if_true]
      rw [mapSet_self]
  · have hrun : checkAndRotateIfDue ent env now st id rotationDays expiryDays =
        (false, st) := by
      unfold checkAndRotateIfDue
      rw [deleteKeyPairIfExpired_hit_notExpired ent env now st id r expiryDays hc hnexp]
      dsimp only
      rw [getOrCreateKeyPair_cacheHit ent env now st id r hc]
      dsimp only
      rw [if_neg hnrot]
      exact rfl
    exact hrun

/-- Witness for C2 (amended): at 100 days since rotation with thresholds
(90, 365), rotation is due but expiry is not, and the call rotates. -/
theorem c2_witness :
    (checkAndRotateIfDue entDemo envOk (86400000 * 100) (demoStateH demoRecord)
      "t" 90 365).1 = true ∧
    (checkAndRotateIfDue entDemo envOk (86400000 * 100) (demoStateH demoRecord)
      "t" 90 365).2.cache "t" =
      some (rotateRecord demoRecord
        (generateHmacKey (entDemo (demoStateH demoRecord).ctr)) (86400000 * 100)) ∧
    (checkAndRotateIfDue entDemo envOk (86400000 * 100) (demoStateH demoRecord)
      "t" 90 365).2.store "t" =
      some (rotateRecord demoRecord
        (generateHmacKey (entDemo (demoStateH demoRecord).ctr)) (86400000 * 100)) :=
  (c2_check_and_rotate entDemo envOk (86400000 * 100) (demoStateH demoRecord)
    "t" demoRecord 90 365 (by decide) rfl rfl).2.1 (by decide) (by decide)

/-- Counterexample to C3: with a throwing store (`envSetFail`), the
`storageHandler('set', …)` call made during the mutation errors, yet `rotate`
returns the new key as a plain value (cache updated, store stale) and the
expiry delete returns the plain value `false` — no store error reaches the
caller. -/
theorem c3_counterexample :
    (storageSet envSetFail (demoStateH demoRecord) "t"
      (some (rotateRecord demoRecord "nk" 5))).isOk = false ∧
    (rotateHmacKey entDemo envSetFail 5 (demoStateH demoRecord) "t" (some "nk")).1 = "nk" ∧
    (rotateHmacKey entDemo envSetFail 5 (demoStateH demoRecord) "t" (some "nk")).2.cache "t" =
      some ⟨"nk", ["a0"], 5⟩ ∧
    (rotateHmacKey entDemo envSetFail 5 (demoStateH demoRecord) "t" (some "nk")).2.store "t" =
      some demoRecord ∧
    (deleteKeyPairIfExpired entDemo envSetFail (86400000 * 400) (demoStateH demoRecord)
      "t" 1).1 = false ∧
    (deleteKeyPairIfExpired entDemo envSetFail (86400000 * 400) (demoStateH demoRecord)
      "t" 1).2.store "t" = some demoRecord := by
  decide

/-- C3 (amended): store `'set'` errors during mutations are caught and logged
(`console.warn`), never propagated: every `'set'` call under this oracle
errors, yet `rotateHmacKey` returns the new key with the store left unchanged,
and the expiry-delete branch reports `false` with the store left unchanged. -/
theorem c3_store_error_not_propagated (ent : Nat → List Byte) (env : StorageEnv)
    (now : Nat) (st : ManagerState) (id : String) (r : KeyPair) (k : String)
    (expiryDays : Nat) (hc : st.cache id = some r) (hh : st.hasHandler = true)
    (hsf : env.setFails = true) (hk : k ≠ "") :
    (∀ v, (storageSet env st id v).isOk = false) ∧
    (rotateHmacKey ent env now st id (some k)).1 = k ∧
    (rotateHmacKey ent env now st id (some k)).2.store = st.store ∧
    ((now : Int) - (r.timestamp : Int) ≥ (expiryDays : Int) * 24 * 60 * 60 * 1000 →
      (deleteKeyPairIfExpired ent env now st id expiryDays).1 = false ∧
      (deleteKeyPairIfExpired ent env now st id expiryDays).2.store = st.store) := by
  refine ⟨fun v => ?_, ?_, ?_, fun hexp => ?_⟩
  · simp [storageSet, hsf, Except.isOk, Except.toBool]
  · rw [rotateHmacKey_cacheHit ent env now st id r k hc hk]
  · rw [rotateHmacKey_cacheHit ent env now st id r k hc hk]
    exact saveKeyPair_store_fail env st id _ hsf
  · rw [deleteKeyPairIfExpired_hit_expired_setFail ent env now st id r expiryDays hc hh hsf hexp]
    exact ⟨rfl, rfl⟩

/-- Witness for C3 (amended). -/
theorem c3_witness :
    (rotateHmacKey entDemo envSetFail 5 (demoStateH demoRecord) "t" (some "nk")).1 = "nk" ∧
    (rotateHmacKey entDemo envSetFail 5 (demoStateH demoRecord) "t" (some "nk")).2.store =
      (demoStateH demoRecord).store :=
  ⟨(c3_store_error_not_propagated entDemo envSetFail 5 (demoStateH demoRecord) "t"
      demoRecord "nk" 1 (by decide) rfl rfl (by decide)).2.1,
   (c3_store_error_not_propagated entDemo envSetFail 5 (demoStateH demoRecord) "t"
      demoRecord "nk" 1 (by decide) rfl rfl (by decide)).2.2.1⟩

/-- Counterexample to C4: under a failing store write the in-memory cache is
not left at its pre-mutation state — after the failed rotate it already holds
the rotated record (store still has the old one), and after the failed
expiry-delete the cache entry is already gone (store still has it): cache and
durable state silently diverge. -/
theorem c4_counterexample :
    (demoStateH demoRecord).cache "t" = some demoRecord ∧
    (rotateHmacKey entDemo envSetFail 5 (demoStateH demoRecord) "t" (some "nk")).2.cache "t" =
      some ⟨"nk", ["a0"], 5⟩ ∧
    (⟨"nk", ["a0"], 5⟩ : KeyPair) ≠ demoRecord ∧
    (rotateHmacKey entDemo envSetFail 5 (demoStateH demoRecord) "t" (some "nk")).2.store "t" =
      some demoRecord ∧
    (deleteKeyPairIfExpired entDemo envSetFail (86400000 * 400) (demoStateH demoRecord)
      "t" 1).2.cache "t" = none ∧
    (deleteKeyPairIfExpired entDemo envSetFail (86400000 * 400) (demoStateH demoRecord)
      "t" 1).2.store "t" = some demoRecord := by
  decide

/-- C4 (amended): the cache is updated before the store write and is not
rolled back on a store failure: after a failed store `'set'` the cache holds
the post-mutation record (rotate) or has lost the entry (expiry-delete) while
the store still holds the pre-mutation record. -/
theorem c4_cache_advances_past_store_failure (ent : Nat → List Byte)
    (env : StorageEnv) (now : Nat) (st : ManagerState) (id : String)
    (r : KeyPair) (k : String) (expiryDays : Nat) (hc : st.cache id = some r)
    (hh : st.hasHandler = true) (hsf : env.setFails = true) (hk : k ≠ "") :
    ((rotateHmacKey ent env now st id (some k)).2.cache id =
        some (rotateRecord r k now) ∧
      (rotateHmacKey ent env now st id (some k)).2.store id = st.store id) ∧
    ((now : Int) - (r.timestamp : Int) ≥ (expiryDays : Int) * 24 * 60 * 60 * 1000 →
      (deleteKeyPairIfExpired ent env now st id expiryDays).2.cache id = none ∧
      (deleteKeyPairIfExpired ent env now st id expiryDays).2.store id = st.store id) := by
  refine ⟨⟨?_, ?_⟩, fun hexp => ?_⟩
  · rw [rotateHmacKey_cacheHit ent env now st id r k hc hk, saveKeyPair_cache, mapSet_self]
  · rw [rotateHmacKey_cacheHit ent env now st id r k hc hk,
      saveKeyPair_store_fail env st id _ hsf]
  · rw [deleteKeyPairIfExpired_hit_expired_setFail ent env now st id r expiryDays hc hh hsf hexp]
    exact ⟨mapSet_self _ _ _, rfl⟩

/-- Witness for C4 (amended). -/
theorem c4_witness :
    (rotateHmacKey entDemo envSetFail 5 (demoStateH demoRecord) "t" (some "nk")).2.cache "t" =
      some (rotateRecord demoRecord "nk" 5) ∧
    (rotateHmacKey entDemo envSetFail 5 (demoStateH demoRecord) "t" (some "nk")).2.store "t" =
      (demoStateH demoRecord).store "t" :=
  (c4_cache_advances_past_store_failure entDemo envSetFail 5 (demoStateH demoRecord)
    "t" demoRecord "nk" 1 (by decide) rfl rfl (by decide)).1

/-- C10: for a tenant with no record in cache or store, `deleteKeyPairIfExpired`
(and `checkAndRotateIfDue`) first lazily creates and persists a brand-new
record with a fresh active key and `timestamp = now`, the expiry check then
runs against that fresh timestamp, and the call reports `false` for any
positive threshold, leaving the new record in cache and store. -/
theorem c10_lazy_creation (ent : Nat → List Byte) (env : StorageEnv)
    (now : Nat) (st : ManagerState) (id : String)
    (rotationDays expiryDays : Nat) (hcn : st.cache id = none)
    (hsn : st.store id = none) (hh : st.hasHandler = true)
    (hg : env.getFails = false) (hs : env.setFails = false)
    (he : 1 ≤ expiryDays) (hr : 1 ≤ rotationDays) :
    (deleteKeyPairIfExpired ent env now st id expiryDays).1 = false ∧
    (deleteKeyPairIfExpired ent env now st id expiryDays).2.cache id =
      some ⟨generateHmacKey (ent st.ctr), [], now⟩ ∧
    (deleteKeyPairIfExpired ent env now st id expiryDays).2.store id =
      some ⟨generateHmacKey (ent st.ctr), [], now⟩ ∧
    (checkAndRotateIfDue ent env now st id rotationDays expiryDays).1 = false ∧
    (checkAndRotateIfDue ent env now st id rotationDays expiryDays).2.cache id =
      some ⟨generateHmacKey (ent st.ctr), [], now⟩ ∧
    (checkAndRotateIfDue ent env now st id rotationDays expiryDays).2.store id =
      some ⟨generateHmacKey (ent st.ctr), [], now⟩ := by
  have hpe : ¬ ((now : Int) - (now : Int) ≥ (expiryDays : Int) * 24 * 60 * 60 * 1000) := by
    have h1 : (1 : Int) ≤ (expiryDays : Int) := by exact_mod_cast he
    omega
  have hpr : ¬ ((now : Int) - (now : Int) ≥ (rotationDays : Int) * 24 * 60 * 60 * 1000) := by
    have h1 : (1 : Int) ≤ (rotationDays : Int) := by exact_mod_cast hr
    omega
  have hdel : deleteKeyPairIfExpired ent env now st id expiryDays =
      (false, saveKeyPair env { st with ctr := st.ctr + 1 } id
        ⟨generateHmacKey (ent st.ctr), [], now⟩) := by
    unfold deleteKeyPairIfExpired
    rw [getOrCreateKeyPair_miss ent env now st id hcn hsn hg]
    dsimp only
    rw [if_neg hpe]
  have hcache1 : (saveKeyPair env { st with ctr := st.ctr + 1 } id
      ⟨generateHmacKey (ent st.ctr), [], now⟩).cache id =
      some ⟨generateHmacKey (ent st.ctr), [], now⟩ := by
    rw [saveKeyPair_cache, mapSet_self]
  have hstore1 : (saveKeyPair env { st with ctr := st.ctr + 1 } id
      ⟨generateHmacKey (ent st.ctr), [], now⟩).store id =
      some ⟨generateHmacKey (ent st.ctr), [], now⟩ := by
    rw [saveKeyPair_store_ok _ _ _ _ hs]
    simp only [hh, if_true]
    rw [mapSet_self]
  have hchk : checkAndRotateIfDue ent env now st id rotationDays expiryDays =
      (false, saveKeyPair env { st with ctr := st.ctr + 1 } id
        ⟨generateHmacKey (ent st.ctr), [], now⟩) := by
    unfold checkAndRotateIfDue
    rw [hdel]
    dsimp only
    rw [getOrCreateKeyPair_cacheHit ent env now _ id _ hcache1]
    dsimp only
    rw [if_neg hpr]
    exact rfl
  rw [hdel, hchk]
  exact ⟨rfl, hcache1, hstore1, rfl, hcache1, hstore1⟩

/-- Witness for C10: an empty manager state with a working store, thresholds
(90, 365). -/
theorem c10_witness :
    (deleteKeyPairIfExpired entDemo envOk 5
      ⟨fun _ => none, fun _ => none, true, 0⟩ "t" 365).1 = false ∧
    (deleteKeyPairIfExpired entDemo envOk 5
      ⟨fun _ => none, fun _ => none, true, 0⟩ "t" 365).2.cache "t" =
      some ⟨generateHmacKey (entDemo (⟨fun _ => none, fun _ => none, true, 0⟩ :
        ManagerState).ctr), [], 5⟩ ∧
    (deleteKeyPairIfExpired entDemo envOk 5
      ⟨fun _ => none, fun _ => none, true, 0⟩ "t" 365).2.store "t" =
      some ⟨generateHmacKey (entDemo (⟨fun _ => none, fun _ => none, true, 0⟩ :
        ManagerState).ctr), [], 5⟩ ∧
    (checkAndRotateIfDue entDemo envOk 5
      ⟨fun _ => none, fun _ => none, true, 0⟩ "t" 90 365).1 = false ∧
    (checkAndRotateIfDue entDemo envOk 5
      ⟨fun _ => none, fun _ => none, true, 0⟩ "t" 90 365).2.cache "t" =
      some ⟨generateHmacKey (entDemo (⟨fun _ => none, fun _ => none, true, 0⟩ :
        ManagerState).ctr), [], 5⟩ ∧
    (checkAndRotateIfDue entDemo envOk 5
      ⟨fun _ => none, fun _ => none, true, 0⟩ "t" 90 365).2.store "t" =
      some ⟨generateHmacKey (entDemo (⟨fun _ => none, fun _ => none, true, 0⟩ :
        ManagerState).ctr), [], 5⟩ :=
  c10_lazy_creation entDemo envOk 5 ⟨fun _ => none, fun _ => none, true, 0⟩
    "t" 90 365 rfl rfl rfl rfl rfl (by decide) (by decide)

end RapydSdk
